import Mathlib

/-!
# API integration-test harness: embedding and verified properties

Shallow embedding of `src/utils/env.js`, `src/utils/auth.js`,
`src/utils/test-utils.js` and `src/utils/api-client.js`.

* JavaScript values are the inductive `JSVal`; plain objects are ordered
  association lists `Obj` (insertion order, one entry per key).
* A JavaScript `throw` is the `.error` side of `Except JsError`.
* The libraries the code calls (`jsonwebtoken`, `supertest`, `node-fetch`,
  `JSON.stringify`, `String.prototype.toUpperCase`) are parameters of the
  definitions that call them.
-/

namespace ApiIntegrationTesting

/-! ## JavaScript values and objects -/

/-- JavaScript values. Numbers are represented by integers plus `nan`; the
code only ever tests a number for truthiness. -/
inductive JSVal where
  | undefined : JSVal
  | null : JSVal
  | bool (b : Bool) : JSVal
  | num (n : Int) : JSVal
  | nan : JSVal
  | str (s : String) : JSVal
  | obj (fields : List (String × JSVal)) : JSVal

/-- Plain JavaScript object: its own enumerable string-keyed properties, in
the object's property order (insertion order for the keys the code uses). -/
abbrev Obj := List (String × JSVal)

/-- JavaScript `ToBoolean`: the falsy values are `undefined`, `null`, `false`,
`0`, `NaN` and the empty string. -/
def JSVal.truthy : JSVal → Bool
  | .undefined => false
  | .null => false
  | .bool b => b
  | .num n => n != 0
  | .nan => false
  | .str s => s != ""
  | .obj _ => true

/-- JavaScript `a || b`. -/
def JSVal.or (a b : JSVal) : JSVal := if a.truthy then a else b

/-- Own-property test `Object.hasOwn(o, k)`. -/
def Obj.has : Obj → String → Bool
  | [], _ => false
  | (k', _) :: rest, k => if k' = k then true else Obj.has rest k

/-- Property read `o[k]`: the stored value, `undefined` when `k` is not a
property of `o`. -/
def Obj.get : Obj → String → JSVal
  | [], _ => .undefined
  | (k', v) :: rest, k => if k' = k then v else Obj.get rest k

/-- Property write `o[k] = v`: replaces the value of an existing property in
place, otherwise adds the property last. -/
def Obj.set : Obj → String → JSVal → Obj
  | [], k, v => [(k, v)]
  | (k', v') :: rest, k, v =>
    if k' = k then (k', v) :: rest else (k', v') :: Obj.set rest k v

/-- Property removal `delete o[k]`. -/
def Obj.delete (o : Obj) (k : String) : Obj :=
  o.filter (fun p => !(p.1 == k))

/-- The own keys of an object, in order. -/
def Obj.keys (o : Obj) : List String := o.map Prod.fst

/-- Copy of the own properties of `src` onto `target` (`Object.assign`, and
each `...src` of an object literal): for every own key of `src`, in order,
`target[k] = src[k]`. -/
def Obj.assign (target src : Obj) : Obj :=
  (Obj.keys src).foldl (fun acc k => Obj.set acc k (Obj.get src k)) target

/-- Object literal with two spreads, `{ ...a, ...b }`. -/
def Obj.spread (a b : Obj) : Obj := Obj.assign (Obj.assign [] a) b

/-- A thrown JavaScript `Error`. -/
structure JsError where
  name : String
  message : String
deriving DecidableEq, Repr

/-! ## `src/utils/env.js` -/

/-- The process environment `process.env`: a variable is unset (`none`) or
holds a string. -/
abbrev ProcessEnv := String → Option String

/-- Value of `process.env[name] || dflt`: the default replaces an unset or
empty variable. -/
def envOr (env : ProcessEnv) (name dflt : String) : String :=
  match env name with
  | some s => if s = "" then dflt else s
  | none => dflt

/-- The constants exported by `env.js`. -/
structure Config where
  API_URL : String
  API_VERSION : String
  JWT_SECRET : String
  JWT_EXPIRATION : String
  TEST_USER_EMAIL : String
  TEST_USER_PASSWORD : String
deriving DecidableEq, Repr

/-- Evaluation of the module `env.js` in the process environment `env` (the
environment as it stands after `dotenv.config`). -/
def loadEnv (env : ProcessEnv) : Config :=
  { API_URL := envOr env "API_URL" "http://localhost:3000"
    API_VERSION := envOr env "API_VERSION" "v1"
    JWT_SECRET := envOr env "JWT_SECRET" "default_jwt_secret"
    JWT_EXPIRATION := envOr env "JWT_EXPIRATION" "1h"
    TEST_USER_EMAIL := envOr env "TEST_USER_EMAIL" "test@example.com"
    TEST_USER_PASSWORD := envOr env "TEST_USER_PASSWORD" "password123" }

/-- The list `requiredEnvVars` of `validateEnv`. -/
def requiredEnvVars : List String := ["JWT_SECRET"]

/-- The test `!process.env[envVar]`. -/
def envMissing (env : ProcessEnv) (envVar : String) : Bool :=
  match env envVar with
  | some s => s == ""
  | none => true

/-- The array `missingEnvVars` of `validateEnv`. -/
def missingEnvVars (env : ProcessEnv) : List String :=
  requiredEnvVars.filter (envMissing env)

/-- The message of the error thrown by `validateEnv`. -/
def missingEnvMessage (missing : List String) : String :=
  "Missing required environment variables: " ++ ", ".intercalate missing ++ "\n" ++
    "Please check your .env file or set these variables in your environment."

/-- The function `validateEnv`, as a step on the process environment: the
environment after the call and the outcome (normal return or thrown error). -/
def validateEnv (env : ProcessEnv) : ProcessEnv × Except JsError Unit :=
  if (missingEnvVars env).length > 0 then
    (env, .error { name := "Error", message := missingEnvMessage (missingEnvVars env) })
  else
    (env, .ok ())

/-! ## `src/utils/auth.js` -/

/-- The two functions of the `jsonwebtoken` library that the code calls.
`sign now payload secret expiresIn` is `jwt.sign(payload, secret, {expiresIn})`
evaluated at clock reading `now`; `verify now token secret` is
`jwt.verify(token, secret)` evaluated at clock reading `now`. Either may
throw. -/
structure JwtLib where
  sign : Nat → Obj → String → String → Except JsError String
  verify : Nat → JSVal → String → Except JsError JSVal

/-- The object `payload` built by `generateToken`. -/
def tokenPayload (user : Obj) : Obj :=
  [("userId", (Obj.get user "id").or (.str "test-user-id")),
   ("email", Obj.get user "email")]

/-- The function `generateToken`. -/
def generateToken (jwt : JwtLib) (cfg : Config) (now : Nat) (user : Obj) :
    Except JsError String :=
  jwt.sign now (tokenPayload user) cfg.JWT_SECRET cfg.JWT_EXPIRATION

/-- The function `verifyToken`: the outcome of the call and the lines it wrote
with `console.error`. -/
def verifyToken (jwt : JwtLib) (cfg : Config) (now : Nat) (token : JSVal) :
    Except JsError JSVal × List String :=
  match jwt.verify now token cfg.JWT_SECRET with
  | .ok decoded => (.ok decoded, [])
  | .error error => (.ok .null, ["Error verifying token: " ++ error.message])

/-- The object returned by `createTestUser`. -/
structure TestUser where
  user : Obj
  token : String
  authHeader : Obj

/-- The object `defaultUser` of `createTestUser`. -/
def defaultUser : Obj :=
  [("id", .str "test-user-id"),
   ("email", .str "test@example.com"),
   ("name", .str "Test User")]

/-- The function `createTestUser`; `customUser` is `none` when the argument
is omitted (the parameter then defaults to the empty object). -/
def createTestUser (jwt : JwtLib) (cfg : Config) (now : Nat) (customUser : Option Obj) :
    Except JsError TestUser :=
  let customUser := customUser.getD []
  let user := Obj.spread defaultUser customUser
  match generateToken jwt cfg now user with
  | .error e => .error e
  | .ok token =>
    .ok { user := user
          token := token
          authHeader := [("Authorization", .str ("Bearer " ++ token))] }

/-! ## `src/utils/test-utils.js` -/

/-- The chainable request object of the `supertest` library, as far as the
harness uses it: the target, verb, url and further arguments it was created
with, the headers attached so far (header names are case-insensitive: each is
kept under its lower-cased name) and the attached body. -/
structure Req where
  app : JSVal
  method : String
  url : JSVal
  args : List JSVal
  header : Obj
  payload : Option JSVal

/-- The header-attachment step `set(name, value)`: the value is stored under
the lower-cased name and replaces any earlier value for that name, in whatever
case the name was written. `toLowerCase` is `String.prototype.toLowerCase`. -/
def Req.set (toLowerCase : String → String) (r : Req) (field : String) (value : JSVal) : Req :=
  { r with header := Obj.set r.header (toLowerCase field) value }

/-- The body-attachment step `send(payload)`. -/
def Req.send (r : Req) (payload : JSVal) : Req :=
  { r with payload := some payload }

/-- The value of the outgoing header `field`, whatever the case `field` is
written in. -/
def Req.getHeader (toLowerCase : String → String) (r : Req) (field : String) : JSVal :=
  Obj.get r.header (toLowerCase field)

/-- A request-issuing object: `agent m` is the method `request[m]`, taking the
url and the further arguments. -/
abbrev Agent := String → JSVal → List JSVal → Req

/-- The function `createRequest`; `supertest` is the library's factory and an
`undefined` argument is replaced by `API_URL`. -/
def createRequest (supertest : JSVal → Agent) (cfg : Config) (app : JSVal) : Agent :=
  match app with
  | .undefined => supertest (.str cfg.API_URL)
  | app => supertest app

/-- The array `methods` of `createAuthenticatedRequest`. -/
def methods : List String := ["get", "post", "put", "patch", "delete", "head"]

/-- The object `authRequest`: created with `Object.create(request)`, so a
method that is not overridden is the one of `request`; each method named in
`methods` is overridden by the function that attaches the bearer header. -/
def authRequest (toLowerCase : String → String) (request : Agent) (token : String) : Agent :=
  fun method url args =>
    if method ∈ methods then
      (request method url args).set toLowerCase "Authorization" (.str ("Bearer " ++ token))
    else
      request method url args

/-- The `options` argument of `createAuthenticatedRequest`. -/
structure AuthOptions where
  user : Option Obj

/-- The object returned by `createAuthenticatedRequest`. -/
structure AuthenticatedRequest where
  request : Agent
  user : Obj
  token : String

/-- The function `createAuthenticatedRequest`; `options` is `none` when the
argument is omitted (the parameter then defaults to the empty object).
`toLowerCase` is the builtin that the library's `set` applies to header
names. -/
def createAuthenticatedRequest (toLowerCase : String → String) (supertest : JSVal → Agent)
    (jwt : JwtLib) (cfg : Config) (now : Nat) (app : JSVal) (options : Option AuthOptions) :
    Except JsError AuthenticatedRequest :=
  let options := options.getD { user := none }
  let request := createRequest supertest cfg app
  match createTestUser jwt cfg now options.user with
  | .error e => .error e
  | .ok tu =>
    .ok { request := authRequest toLowerCase request tu.token
          user := tu.user
          token := tu.token }

/-! ## `src/utils/api-client.js` -/

/-- The string test `s.startsWith(p)`. -/
def startsWith (s p : String) : Bool := p.data.isPrefixOf s.data

/-- The string operation `s.slice(1)`. -/
def slice1 (s : String) : String := ⟨s.data.drop 1⟩

/-- The string test `s.includes(p)`. -/
def includes (s p : String) : Bool := decide (p.data <:+: s.data)

/-- An instance of the class `ApiClient`. -/
structure ApiClient where
  baseUrl : String
  version : String
  headers : Obj

/-- The `options` argument of the constructor of `ApiClient`. -/
structure ClientOptions where
  baseUrl : Option String
  version : Option String
  headers : Option Obj

/-- Value of `x || dflt` for an optional string `x`. -/
def strOr (x : Option String) (dflt : String) : String :=
  match x with
  | some s => if s = "" then dflt else s
  | none => dflt

/-- The constructor of `ApiClient`; `options` is `none` when the argument is
omitted. -/
def ApiClient.new (cfg : Config) (options : Option ClientOptions) : ApiClient :=
  let options := options.getD { baseUrl := none, version := none, headers := none }
  { baseUrl := strOr options.baseUrl cfg.API_URL
    version := strOr options.version cfg.API_VERSION
    headers := Obj.spread
      [("Content-Type", .str "application/json"), ("Accept", .str "application/json")]
      (options.headers.getD []) }

/-- The method `getUrl`. -/
def ApiClient.getUrl (c : ApiClient) (endpoint : String) : String :=
  let cleanEndpoint := if startsWith endpoint "/" then slice1 endpoint else endpoint
  c.baseUrl ++ "/" ++ c.version ++ "/" ++ cleanEndpoint

/-- The method `setAuthToken`. -/
def ApiClient.setAuthToken (c : ApiClient) (token : String) : ApiClient :=
  { c with headers := Obj.set c.headers "Authorization" (.str ("Bearer " ++ token)) }

/-- The method `clearAuthToken`. -/
def ApiClient.clearAuthToken (c : ApiClient) : ApiClient :=
  { c with headers := Obj.delete c.headers "Authorization" }

/-- The second argument of `fetch`: `body` is `none` when the property is not
set. -/
structure FetchOptions where
  method : String
  headers : Obj
  body : Option String

/-- The response of `fetch`, as far as `request` reads it: the status, the
headers, the value of `headers.get("content-type")` and the outcomes of
`json()` and `text()`. -/
structure FetchResponse where
  status : Nat
  headers : Obj
  contentType : Option String
  json : Except JsError JSVal
  text : Except JsError String

/-- The object returned by `request`. -/
structure ApiResult where
  status : Nat
  headers : Obj
  data : JSVal

/-- The builtins that `request` calls: `String.prototype.toUpperCase` and
`JSON.stringify`. -/
structure Builtins where
  toUpperCase : String → String
  stringify : JSVal → String

/-- The object `options` that `request` passes to `fetch`. The parameter
`customHeaders` is `none` when the argument is omitted. -/
def ApiClient.requestOptions (js : Builtins) (c : ApiClient) (method : String) (data : JSVal)
    (customHeaders : Option Obj) : FetchOptions :=
  let customHeaders := customHeaders.getD []
  let headers := Obj.spread c.headers customHeaders
  let options : FetchOptions := { method := method, headers := headers, body := none }
  if data.truthy && ["POST", "PUT", "PATCH"].contains (js.toUpperCase method) then
    { options with body := some (js.stringify data) }
  else
    options

/-- The `try` block of `request`, given the outcome of `fetch`. -/
def readResponse (fetched : Except JsError FetchResponse) : Except JsError ApiResult :=
  match fetched with
  | .error e => .error e
  | .ok response =>
    if (match response.contentType with
        | some contentType => contentType != "" && includes contentType "application/json"
        | none => false) then
      match response.json with
      | .error e => .error e
      | .ok data => .ok { status := response.status, headers := response.headers, data := data }
    else
      match response.text with
      | .error e => .error e
      | .ok text =>
        .ok { status := response.status, headers := response.headers, data := .str text }

/-- The default `data = null` of the parameter list of `request`: an
`undefined` argument is replaced by `null`. -/
def defaultNull : JSVal → JSVal
  | .undefined => .null
  | data => data

/-- The method `request`, as a step on the instance: the instance after the
call, the outcome, and the lines written with `console.error` (the error is
shown by its message). An error thrown in the `try` block is logged and thrown
again. -/
def ApiClient.request (js : Builtins) (fetch : String → FetchOptions → Except JsError FetchResponse)
    (c : ApiClient) (method endpoint : String) (data : JSVal) (customHeaders : Option Obj) :
    ApiClient × Except JsError ApiResult × List String :=
  let data := defaultNull data
  let url := c.getUrl endpoint
  let options := c.requestOptions js method data customHeaders
  match readResponse (fetch url options) with
  | .ok result => (c, .ok result, [])
  | .error error =>
    (c, .error error,
      ["Error making " ++ method ++ " request to " ++ url ++ ": " ++ error.message])

/-- The method `get`. -/
def ApiClient.get (js : Builtins) (fetch : String → FetchOptions → Except JsError FetchResponse)
    (c : ApiClient) (endpoint : String) (customHeaders : Option Obj) :
    ApiClient × Except JsError ApiResult × List String :=
  c.request js fetch "GET" endpoint .null customHeaders

/-- The method `post`. -/
def ApiClient.post (js : Builtins) (fetch : String → FetchOptions → Except JsError FetchResponse)
    (c : ApiClient) (endpoint : String) (data : JSVal) (customHeaders : Option Obj) :
    ApiClient × Except JsError ApiResult × List String :=
  c.request js fetch "POST" endpoint data customHeaders

/-- The method `put`. -/
def ApiClient.put (js : Builtins) (fetch : String → FetchOptions → Except JsError FetchResponse)
    (c : ApiClient) (endpoint : String) (data : JSVal) (customHeaders : Option Obj) :
    ApiClient × Except JsError ApiResult × List String :=
  c.request js fetch "PUT" endpoint data customHeaders

/-- The method `patch`. -/
def ApiClient.patch (js : Builtins) (fetch : String → FetchOptions → Except JsError FetchResponse)
    (c : ApiClient) (endpoint : String) (data : JSVal) (customHeaders : Option Obj) :
    ApiClient × Except JsError ApiResult × List String :=
  c.request js fetch "PATCH" endpoint data customHeaders

/-- The method `delete`. -/
def ApiClient.delete (js : Builtins) (fetch : String → FetchOptions → Except JsError FetchResponse)
    (c : ApiClient) (endpoint : String) (customHeaders : Option Obj) :
    ApiClient × Except JsError ApiResult × List String :=
  c.request js fetch "DELETE" endpoint .null customHeaders

/-! ## Fixtures for the concrete instances -/

/-- A process environment with no variable set. -/
def emptyEnv : ProcessEnv := fun _ => none

/-- The client built by `new ApiClient()` when no variable is set. -/
def defaultClient : ApiClient := ApiClient.new (loadEnv emptyEnv) none

/-- ASCII upper-casing, the restriction of `toUpperCase` to ASCII strings. -/
def asciiUpper (s : String) : String := ⟨s.data.map Char.toUpper⟩

/-- Builtins for the concrete instances: ASCII upper-casing, and a stand-in for
`JSON.stringify` that is exact on `null`, the booleans and the empty object. -/
def sampleBuiltins : Builtins :=
  { toUpperCase := asciiUpper
    stringify := fun v =>
      match v with
      | .bool true => "true"
      | .bool false => "false"
      | .obj [] => "\x7b\x7d"
      | _ => "null" }

/-- Test that a value is the string `s`. -/
def isStr (v : JSVal) (s : String) : Bool :=
  match v with
  | .str t => t == s
  | _ => false

/-- A small stand-in for the `jsonwebtoken` library, for the concrete
instances. At clock reading 0 it signs the payload of the default identity
with the default secret and a lifetime of one hour, and it verifies that token
until the hour has passed. -/
def sampleJwt : JwtLib :=
  { sign := fun now payload secret expiresIn =>
      if now = 0 ∧ Obj.keys payload = ["userId", "email"]
          ∧ isStr (Obj.get payload "userId") "test-user-id" = true
          ∧ isStr (Obj.get payload "email") "test@example.com" = true
          ∧ secret = "default_jwt_secret" ∧ expiresIn = "1h" then
        .ok "header.payload.signature"
      else
        .error { name := "Error", message := "unsupported payload" }
    verify := fun now token secret =>
      match token with
      | .str t =>
        if t = "header.payload.signature" ∧ secret = "default_jwt_secret" then
          if now < 3600 then
            .ok (.obj [("userId", .str "test-user-id"), ("email", .str "test@example.com"),
              ("iat", .num 0), ("exp", .num 3600)])
          else
            .error { name := "TokenExpiredError", message := "jwt expired" }
        else
          .error { name := "JsonWebTokenError", message := "invalid signature" }
      | _ => .error { name := "JsonWebTokenError", message := "jwt must be a string" } }

/-- ASCII lower-casing, the restriction of `toLowerCase` to ASCII strings. -/
def asciiLower (s : String) : String := ⟨s.data.map Char.toLower⟩

/-- Decimal digits of a number below `10 ^ fuel`, most significant first. -/
def natDigits : Nat → Nat → List Char → List Char
  | 0, _, acc => acc
  | fuel + 1, n, acc =>
    if n < 10 then Char.ofNat (48 + n) :: acc
    else natDigits fuel (n / 10) (Char.ofNat (48 + n % 10) :: acc)

/-- The number written by a non-empty list of decimal digits. -/
def parseDigits (cs : List Char) : Option Nat :=
  if cs ≠ [] ∧ cs.all Char.isDigit = true then
    some (cs.foldl (fun acc c => 10 * acc + (c.toNat - 48)) 0)
  else none

/-- The parts of a list of characters between the bars. -/
def splitBar : List Char → List (List Char)
  | [] => [[]]
  | c :: cs =>
    if c = '|' then [] :: splitBar cs
    else
      match splitBar cs with
      | [] => [[c]]
      | part :: parts => (c :: part) :: parts

/-- The lifetime in seconds of the `expiresIn` values the stand-in library
below accepts. -/
def lifetimeOf (expiresIn : String) : Option Nat :=
  if expiresIn = "1h" then some 3600
  else if expiresIn = "1m" then some 60
  else if expiresIn = "1s" then some 1
  else none

/-- A second stand-in for the `jsonwebtoken` library, which honours expiry. It
signs any payload whose `userId` and `email` are strings without a bar: the
token is `secret|iat|exp|userId|email`, with `iat` the clock reading and `exp`
the clock reading plus the lifetime. It verifies a token when the secret is the
one in the token and the clock reading is before `exp`. -/
def expiringJwt : JwtLib :=
  { sign := fun now payload secret expiresIn =>
      match lifetimeOf expiresIn, Obj.get payload "userId", Obj.get payload "email" with
      | some lifetime, .str userId, .str email =>
        if '|' ∈ secret.data ++ userId.data ++ email.data then
          .error { name := "Error", message := "unsupported payload" }
        else
          .ok ("|".intercalate
            [secret, ⟨natDigits 20 now []⟩, ⟨natDigits 20 (now + lifetime) []⟩, userId, email])
      | none, _, _ => .error { name := "Error", message := "invalid expiresIn option" }
      | _, _, _ => .error { name := "Error", message := "unsupported payload" }
    verify := fun now token secret =>
      match token with
      | .str t =>
        match splitBar t.data with
        | [sig, iat, exp, userId, email] =>
          if String.mk sig = secret then
            match parseDigits iat, parseDigits exp with
            | some iat, some exp =>
              if now < exp then
                .ok (.obj [("userId", .str ⟨userId⟩), ("email", .str ⟨email⟩),
                  ("iat", .num iat), ("exp", .num exp)])
              else
                .error { name := "TokenExpiredError", message := "jwt expired" }
            | _, _ => .error { name := "JsonWebTokenError", message := "jwt malformed" }
          else
            .error { name := "JsonWebTokenError", message := "invalid signature" }
        | _ => .error { name := "JsonWebTokenError", message := "jwt malformed" }
      | _ => .error { name := "JsonWebTokenError", message := "jwt must be a string" } }

/-- A stand-in for the `supertest` factory, for the concrete instances: every
verb creates a request with no header and no body. -/
def sampleSupertest : JSVal → Agent :=
  fun app method url args =>
    { app := app, method := method, url := url, args := args, header := [], payload := none }

/-! ## Lemmas on objects -/

theorem Obj.get_set_self (o : Obj) (k : String) (v : JSVal) :
    Obj.get (Obj.set o k v) k = v := by
  induction o with
  | nil => simp [Obj.set, Obj.get]
  | cons p rest ih =>
    obtain ⟨k', v'⟩ := p
    by_cases hk : k' = k
    · simp [Obj.set, Obj.get, hk]
    · simp [Obj.set, Obj.get, hk, ih]

theorem Obj.get_set_ne (o : Obj) (k k₁ : String) (v : JSVal) (hne : k₁ ≠ k) :
    Obj.get (Obj.set o k v) k₁ = Obj.get o k₁ := by
  induction o with
  | nil => simp [Obj.set, Obj.get, Ne.symm hne]
  | cons p rest ih =>
    obtain ⟨k', v'⟩ := p
    by_cases hk : k' = k
    · subst hk
      simp [Obj.set, Obj.get, Ne.symm hne]
    · by_cases hk₁ : k' = k₁
      · subst hk₁
        simp [Obj.set, Obj.get, hk]
      · simp [Obj.set, Obj.get, hk, hk₁, ih]

theorem Obj.has_set (o : Obj) (k k₁ : String) (v : JSVal) :
    Obj.has (Obj.set o k v) k₁ = (decide (k₁ = k) || Obj.has o k₁) := by
  induction o with
  | nil => simp [Obj.set, Obj.has, eq_comm]
  | cons p rest ih =>
    obtain ⟨k', v'⟩ := p
    by_cases hk : k' = k
    · subst hk
      by_cases hk₁ : k' = k₁
      · simp [Obj.set, Obj.has, hk₁]
      · simp [Obj.set, Obj.has, hk₁, Ne.symm hk₁]
    · by_cases hk₁ : k' = k₁
      · subst hk₁
        simp [Obj.set, Obj.has, hk]
      · simp [Obj.set, Obj.has, hk, hk₁, ih]

theorem Obj.has_eq_mem_keys (o : Obj) (k : String) :
    Obj.has o k = decide (k ∈ Obj.keys o) := by
  induction o with
  | nil => simp [Obj.has, Obj.keys]
  | cons p rest ih =>
    obtain ⟨k', v'⟩ := p
    by_cases hk : k' = k
    · simp [Obj.has, Obj.keys, hk]
    · have ih' : Obj.has rest k = decide (k ∈ List.map Prod.fst rest) := ih
      simp [Obj.has, Obj.keys, hk, Ne.symm hk, ih']

theorem Obj.get_of_not_has (o : Obj) (k : String) (h : Obj.has o k = false) :
    Obj.get o k = .undefined := by
  induction o with
  | nil => simp [Obj.get]
  | cons p rest ih =>
    obtain ⟨k', v'⟩ := p
    by_cases hk : k' = k
    · simp [Obj.has, hk] at h
    · simp [Obj.has, hk] at h
      simp [Obj.get, hk, ih h]

/-- Reading a key after copying the keys `ks` of `src` onto `target`. -/
theorem Obj.get_foldl_set (src : Obj) (ks : List String) (target : Obj) (k : String) :
    Obj.get (ks.foldl (fun acc k => Obj.set acc k (Obj.get src k)) target) k
      = if k ∈ ks then Obj.get src k else Obj.get target k := by
  induction ks generalizing target with
  | nil => simp
  | cons k₀ ks ih =>
    rw [List.foldl_cons, ih]
    by_cases hmem : k ∈ ks
    · simp [hmem]
    · by_cases hk : k = k₀
      · subst hk
        simp [hmem, Obj.get_set_self]
      · simp [hmem, hk, Obj.get_set_ne _ _ _ _ hk]

/-- Own keys after copying the keys `ks` of `src` onto `target`. -/
theorem Obj.has_foldl_set (src : Obj) (ks : List String) (target : Obj) (k : String) :
    Obj.has (ks.foldl (fun acc k => Obj.set acc k (Obj.get src k)) target) k
      = (Obj.has target k || decide (k ∈ ks)) := by
  induction ks generalizing target with
  | nil => simp
  | cons k₀ ks ih =>
    rw [List.foldl_cons, ih, Obj.has_set]
    by_cases hk : k = k₀ <;> by_cases hmem : k ∈ ks <;> simp [hk, hmem]

theorem Obj.get_assign (target src : Obj) (k : String) :
    Obj.get (Obj.assign target src) k
      = if Obj.has src k then Obj.get src k else Obj.get target k := by
  unfold Obj.assign
  rw [Obj.get_foldl_set, Obj.has_eq_mem_keys]
  simp

theorem Obj.has_assign (target src : Obj) (k : String) :
    Obj.has (Obj.assign target src) k = (Obj.has target k || Obj.has src k) := by
  unfold Obj.assign
  rw [Obj.has_foldl_set, Obj.has_eq_mem_keys src]

theorem Obj.get_spread (a b : Obj) (k : String) :
    Obj.get (Obj.spread a b) k = if Obj.has b k then Obj.get b k else Obj.get a k := by
  unfold Obj.spread
  rw [Obj.get_assign, Obj.get_assign]
  by_cases hb : Obj.has b k = true
  · simp [hb]
  · by_cases ha : Obj.has a k = true
    · simp [hb, ha]
    · simp only [hb, ha, if_false]
      rw [Obj.get_of_not_has a k (by simpa using ha)]
      rfl

theorem Obj.has_spread (a b : Obj) (k : String) :
    Obj.has (Obj.spread a b) k = (Obj.has a k || Obj.has b k) := by
  unfold Obj.spread
  rw [Obj.has_assign, Obj.has_assign]
  simp [Obj.has]

theorem Obj.has_delete_self (o : Obj) (k : String) :
    Obj.has (Obj.delete o k) k = false := by
  rw [Obj.has_eq_mem_keys]
  simp [Obj.delete, Obj.keys, List.mem_filter]

theorem Obj.get_delete_ne (o : Obj) (k k₁ : String) (hne : k₁ ≠ k) :
    Obj.get (Obj.delete o k) k₁ = Obj.get o k₁ := by
  induction o with
  | nil => simp [Obj.delete]
  | cons p rest ih =>
    obtain ⟨k', v'⟩ := p
    have ih' : Obj.get (List.filter (fun p => !(p.1 == k)) rest) k₁ = Obj.get rest k₁ := ih
    by_cases hk : k' = k
    · subst hk
      simp [Obj.delete, List.filter_cons, Obj.get, Ne.symm hne, ih']
    · by_cases hk₁ : k' = k₁
      · subst hk₁
        simp [Obj.delete, List.filter_cons, Obj.get, hk]
      · simp [Obj.delete, List.filter_cons, Obj.get, hk, hk₁, ih']

theorem Obj.has_delete_ne (o : Obj) (k k₁ : String) (hne : k₁ ≠ k) :
    Obj.has (Obj.delete o k) k₁ = Obj.has o k₁ := by
  rw [Obj.has_eq_mem_keys, Obj.has_eq_mem_keys]
  congr 1
  simp only [Obj.delete, Obj.keys, List.mem_map, List.mem_filter, eq_iff_iff]
  constructor
  · rintro ⟨p, ⟨hp, _⟩, rfl⟩
    exact ⟨p, hp, rfl⟩
  · rintro ⟨p, hp, rfl⟩
    exact ⟨p, ⟨hp, by simpa using hne⟩, rfl⟩

theorem Obj.delete_of_not_has (o : Obj) (k : String) (h : Obj.has o k = false) :
    Obj.delete o k = o := by
  induction o with
  | nil => rfl
  | cons p rest ih =>
    obtain ⟨k', v'⟩ := p
    by_cases hk : k' = k
    · simp [Obj.has, hk] at h
    · simp [Obj.has, hk] at h
      have ih' : List.filter (fun p => !(p.1 == k)) rest = rest := ih h
      simp [Obj.delete, List.filter_cons, hk, ih']

theorem Obj.delete_set_of_not_has (o : Obj) (k : String) (v : JSVal)
    (h : Obj.has o k = false) : Obj.delete (Obj.set o k v) k = o := by
  induction o with
  | nil => simp [Obj.set, Obj.delete]
  | cons p rest ih =>
    obtain ⟨k', v'⟩ := p
    by_cases hk : k' = k
    · simp [Obj.has, hk] at h
    · simp [Obj.has, hk] at h
      have ih' : List.filter (fun p => !(p.1 == k)) (Obj.set rest k v) = rest := ih h
      simp [Obj.set, Obj.delete, List.filter_cons, hk, ih']

/-! ## Environment configuration -/

/-- C10: `validateEnv` throws exactly when `JWT_SECRET` is unset or empty in the
process environment; the thrown error's message lists the missing variable
`JWT_SECRET`; otherwise it returns normally; in both cases the environment is
the one it was called in. Loading the configuration always yields a non-empty
`JWT_SECRET`, the default when the variable is unset or empty. -/
theorem validateEnv_throws_iff_secret_absent (env : ProcessEnv) :
    validateEnv env =
      (env,
        if env "JWT_SECRET" = none ∨ env "JWT_SECRET" = some "" then
          .error
            { name := "Error"
              message :=
                "Missing required environment variables: JWT_SECRET\n" ++
                  "Please check your .env file or set these variables in your environment." }
        else .ok ())
    ∧ (loadEnv env).JWT_SECRET =
        (if env "JWT_SECRET" = none ∨ env "JWT_SECRET" = some "" then "default_jwt_secret"
         else (env "JWT_SECRET").getD "")
    ∧ (loadEnv env).JWT_SECRET ≠ "" := by
  cases h : env "JWT_SECRET" with
  | none =>
    refine ⟨?_, ?_, ?_⟩
    · simp [validateEnv, missingEnvVars, requiredEnvVars, envMissing, h, missingEnvMessage,
        String.intercalate, String.intercalate.go, List.filter]
    · simp [loadEnv, envOr, h]
    · simp [loadEnv, envOr, h]
  | some s =>
    by_cases hs : s = ""
    · subst hs
      refine ⟨?_, ?_, ?_⟩
      · simp [validateEnv, missingEnvVars, requiredEnvVars, envMissing, h, missingEnvMessage,
          String.intercalate, String.intercalate.go, List.filter]
      · simp [loadEnv, envOr, h]
      · simp [loadEnv, envOr, h]
    · have hb : (s == "") = false := by simpa using hs
      refine ⟨?_, ?_, ?_⟩
      · simp [validateEnv, missingEnvVars, requiredEnvVars, envMissing, h, hs, hb, List.filter]
      · simp [loadEnv, envOr, h, hs]
      · simp [loadEnv, envOr, h, hs]

/-! ## API client -/

theorem startsWith_slash_append (e : String) : startsWith ("/" ++ e) "/" = true := by
  simp [startsWith, String.data_append]

theorem slice1_slash_append (e : String) : slice1 ("/" ++ e) = e := by
  simp [slice1, String.data_append]

/-- C6: for an endpoint `e` that does not start with a slash, `getUrl(e)` and
`getUrl("/" + e)` are both `baseUrl + "/" + version + "/" + e`; only one
leading slash is removed, so `getUrl("//" + e)` keeps one slash before `e`. -/
theorem getUrl_leading_slash_optional (c : ApiClient) (e : String)
    (he : startsWith e "/" = false) :
    c.getUrl e = c.baseUrl ++ "/" ++ c.version ++ "/" ++ e
    ∧ c.getUrl ("/" ++ e) = c.baseUrl ++ "/" ++ c.version ++ "/" ++ e
    ∧ c.getUrl ("/" ++ ("/" ++ e)) = c.baseUrl ++ "/" ++ c.version ++ "/" ++ ("/" ++ e) := by
  refine ⟨?_, ?_, ?_⟩
  · simp [ApiClient.getUrl, he]
  · simp [ApiClient.getUrl, startsWith_slash_append, slice1_slash_append]
  · simp only [ApiClient.getUrl, startsWith_slash_append, slice1_slash_append, if_true]

/-- Instance of C6: the default client and the endpoint `items`. -/
theorem getUrl_leading_slash_optional_items :
    startsWith "items" "/" = false
    ∧ defaultClient.getUrl "items" = "http://localhost:3000/v1/items"
    ∧ defaultClient.getUrl "/items" = "http://localhost:3000/v1/items"
    ∧ defaultClient.getUrl "//items" = "http://localhost:3000/v1//items" := by
  have h := getUrl_leading_slash_optional defaultClient "items" (by decide)
  refine ⟨by decide, ?_, ?_, ?_⟩
  · rw [h.1]; decide
  · have h2 := h.2.1
    have e1 : ("/" ++ "items" : String) = "/items" := by decide
    rw [e1] at h2
    rw [h2]; decide
  · have h3 := h.2.2
    have e2 : ("/" ++ ("/" ++ "items") : String) = "//items" := by decide
    rw [e2] at h3
    rw [h3]; decide

/-- C9: `setAuthToken(t)` sets the default header `Authorization` to
`"Bearer " + t` and `clearAuthToken()` removes it; both leave every other
default header, `baseUrl` and `version` as they were. For a client without an
`Authorization` default header, setting then clearing restores the client, and
clearing twice is the same as clearing once. -/
theorem setAuthToken_clearAuthToken_frame (c : ApiClient) (t : String) :
    (Obj.get (c.setAuthToken t).headers "Authorization" = .str ("Bearer " ++ t)
      ∧ Obj.has (c.setAuthToken t).headers "Authorization" = true
      ∧ (∀ k, k ≠ "Authorization" →
          Obj.get (c.setAuthToken t).headers k = Obj.get c.headers k
          ∧ Obj.has (c.setAuthToken t).headers k = Obj.has c.headers k)
      ∧ (c.setAuthToken t).baseUrl = c.baseUrl
      ∧ (c.setAuthToken t).version = c.version)
    ∧ (Obj.has c.clearAuthToken.headers "Authorization" = false
      ∧ Obj.get c.clearAuthToken.headers "Authorization" = .undefined
      ∧ (∀ k, k ≠ "Authorization" →
          Obj.get c.clearAuthToken.headers k = Obj.get c.headers k
          ∧ Obj.has c.clearAuthToken.headers k = Obj.has c.headers k)
      ∧ c.clearAuthToken.baseUrl = c.baseUrl
      ∧ c.clearAuthToken.version = c.version)
    ∧ (Obj.has c.headers "Authorization" = false → (c.setAuthToken t).clearAuthToken = c)
    ∧ c.clearAuthToken.clearAuthToken = c.clearAuthToken := by
  refine ⟨⟨?_, ?_, ?_, rfl, rfl⟩, ⟨?_, ?_, ?_, rfl, rfl⟩, ?_, ?_⟩
  · exact Obj.get_set_self _ _ _
  · simp [ApiClient.setAuthToken, Obj.has_set]
  · intro k hk
    refine ⟨Obj.get_set_ne _ _ _ _ hk, ?_⟩
    simp [ApiClient.setAuthToken, Obj.has_set, hk]
  · exact Obj.has_delete_self _ _
  · exact Obj.get_of_not_has _ _ (Obj.has_delete_self _ _)
  · intro k hk
    exact ⟨Obj.get_delete_ne _ _ _ hk, Obj.has_delete_ne _ _ _ hk⟩
  · intro h
    cases c with
    | mk b v hs =>
      simp only [ApiClient.setAuthToken, ApiClient.clearAuthToken]
      rw [Obj.delete_set_of_not_has hs _ _ h]
  · cases c with
    | mk b v hs =>
      simp only [ApiClient.clearAuthToken]
      rw [Obj.delete_of_not_has _ _ (Obj.has_delete_self hs _)]

/-- Instance of C9: the default client has no `Authorization` header, and
setting the token `abc` then clearing it gives the default client back. -/
theorem setAuthToken_clearAuthToken_frame_default :
    Obj.has defaultClient.headers "Authorization" = false
    ∧ Obj.get (defaultClient.setAuthToken "abc").headers "Authorization" = .str "Bearer abc"
    ∧ (defaultClient.setAuthToken "abc").clearAuthToken = defaultClient :=
  ⟨by decide,
   (setAuthToken_clearAuthToken_frame defaultClient "abc").1.1,
   (setAuthToken_clearAuthToken_frame defaultClient "abc").2.2.1 (by decide)⟩

/-- C7: the headers that `request` passes to `fetch` are the instance's default
headers merged with `customHeaders`: a key of `customHeaders` carries the
`customHeaders` value, any other key carries the default value, the keys are
those of the two objects and no other, and the instance is unchanged by the
call. -/
theorem request_headers_merge (js : Builtins)
    (fetch : String → FetchOptions → Except JsError FetchResponse) (c : ApiClient)
    (method endpoint : String) (data : JSVal) (customHeaders : Option Obj) :
    (c.request js fetch method endpoint data customHeaders).2.1
        = readResponse (fetch (c.getUrl endpoint)
            (c.requestOptions js method (defaultNull data) customHeaders))
    ∧ (∀ k, Obj.get (c.requestOptions js method (defaultNull data) customHeaders).headers k
        = if Obj.has (customHeaders.getD []) k then Obj.get (customHeaders.getD []) k
          else Obj.get c.headers k)
    ∧ (∀ k, Obj.has (c.requestOptions js method (defaultNull data) customHeaders).headers k
        = (Obj.has c.headers k || Obj.has (customHeaders.getD []) k))
    ∧ (c.request js fetch method endpoint data customHeaders).1 = c := by
  have hh : (c.requestOptions js method (defaultNull data) customHeaders).headers
      = Obj.spread c.headers (customHeaders.getD []) := by
    unfold ApiClient.requestOptions
    split <;> rfl
  refine ⟨?_, ?_, ?_, ?_⟩
  · unfold ApiClient.request
    simp only []
    split <;> simp_all
  · intro k
    rw [hh, Obj.get_spread]
  · intro k
    rw [hh, Obj.has_spread]
  · unfold ApiClient.request
    simp only []
    split <;> rfl

theorem requestOptions_body (js : Builtins) (c : ApiClient) (method : String) (data : JSVal)
    (customHeaders : Option Obj) :
    (c.requestOptions js method data customHeaders).body
      = if data.truthy = true ∧ (js.toUpperCase method = "POST" ∨
            js.toUpperCase method = "PUT" ∨ js.toUpperCase method = "PATCH") then
          some (js.stringify data)
        else none := by
  unfold ApiClient.requestOptions
  by_cases hd : data.truthy = true
  · by_cases hm : js.toUpperCase method = "POST" ∨
        js.toUpperCase method = "PUT" ∨ js.toUpperCase method = "PATCH"
    · have hc : ["POST", "PUT", "PATCH"].contains (js.toUpperCase method) = true := by
        simpa using hm
      simp [hd, hm, hc]
    · have hc : ["POST", "PUT", "PATCH"].contains (js.toUpperCase method) = false := by
        simpa using hm
      simp [hd, hm, hc]
  · simp [hd]

theorem truthy_defaultNull (data : JSVal) : (defaultNull data).truthy = data.truthy := by
  cases data <;> rfl

theorem defaultNull_of_truthy (data : JSVal) (h : data.truthy = true) :
    defaultNull data = data := by
  cases data <;> first | rfl | simp [JSVal.truthy] at h

theorem request_outcome (js : Builtins)
    (fetch : String → FetchOptions → Except JsError FetchResponse) (c : ApiClient)
    (method endpoint : String) (data : JSVal) (customHeaders : Option Obj) :
    (c.request js fetch method endpoint data customHeaders).2.1
      = readResponse (fetch (c.getUrl endpoint)
          (c.requestOptions js method (defaultNull data) customHeaders)) := by
  unfold ApiClient.request
  simp only []
  split <;> simp_all

/-- C8: the options that `request` passes to `fetch` have a body if and only
if `data` is truthy and the upper-cased method is `POST`, `PUT` or `PATCH`, and
the body is then `JSON.stringify(data)`. Hence `get` and `delete` send no
body, and (upper-casing leaving `POST`, `PUT` and `PATCH` as they are) `post`,
`put` and `patch` send `JSON.stringify(data)` exactly when `data` is truthy. -/
theorem request_body_only_for_post_put_patch (js : Builtins) (c : ApiClient)
    (method endpoint : String) (data : JSVal) (customHeaders : Option Obj)
    (hupper : js.toUpperCase "POST" = "POST" ∧ js.toUpperCase "PUT" = "PUT"
      ∧ js.toUpperCase "PATCH" = "PATCH") :
    ((∀ fetch, (c.request js fetch method endpoint data customHeaders).2.1
          = readResponse (fetch (c.getUrl endpoint)
              (c.requestOptions js method (defaultNull data) customHeaders)))
      ∧ (c.requestOptions js method (defaultNull data) customHeaders).body
          = if data.truthy = true ∧ (js.toUpperCase method = "POST" ∨
                js.toUpperCase method = "PUT" ∨ js.toUpperCase method = "PATCH") then
              some (js.stringify data)
            else none)
    ∧ ((∀ fetch, (c.get js fetch endpoint customHeaders).2.1
          = readResponse (fetch (c.getUrl endpoint)
              (c.requestOptions js "GET" .null customHeaders)))
      ∧ (c.requestOptions js "GET" .null customHeaders).body = none)
    ∧ ((∀ fetch, (c.delete js fetch endpoint customHeaders).2.1
          = readResponse (fetch (c.getUrl endpoint)
              (c.requestOptions js "DELETE" .null customHeaders)))
      ∧ (c.requestOptions js "DELETE" .null customHeaders).body = none)
    ∧ ((∀ fetch, (c.post js fetch endpoint data customHeaders).2.1
          = readResponse (fetch (c.getUrl endpoint)
              (c.requestOptions js "POST" (defaultNull data) customHeaders)))
      ∧ (c.requestOptions js "POST" (defaultNull data) customHeaders).body
          = if data.truthy = true then some (js.stringify data) else none)
    ∧ ((∀ fetch, (c.put js fetch endpoint data customHeaders).2.1
          = readResponse (fetch (c.getUrl endpoint)
              (c.requestOptions js "PUT" (defaultNull data) customHeaders)))
      ∧ (c.requestOptions js "PUT" (defaultNull data) customHeaders).body
          = if data.truthy = true then some (js.stringify data) else none)
    ∧ ((∀ fetch, (c.patch js fetch endpoint data customHeaders).2.1
          = readResponse (fetch (c.getUrl endpoint)
              (c.requestOptions js "PATCH" (defaultNull data) customHeaders)))
      ∧ (c.requestOptions js "PATCH" (defaultNull data) customHeaders).body
          = if data.truthy = true then some (js.stringify data) else none) := by
  obtain ⟨hpost, hput, hpatch⟩ := hupper
  have hbody : ∀ m : String,
      (c.requestOptions js m (defaultNull data) customHeaders).body
        = if data.truthy = true ∧ (js.toUpperCase m = "POST" ∨
              js.toUpperCase m = "PUT" ∨ js.toUpperCase m = "PATCH") then
            some (js.stringify data)
          else none := by
    intro m
    rw [requestOptions_body, truthy_defaultNull]
    by_cases hd : data.truthy = true
    · rw [defaultNull_of_truthy data hd]
    · simp [hd]
  refine ⟨⟨fun fetch => request_outcome js fetch c method endpoint data customHeaders,
      hbody method⟩, ⟨?_, ?_⟩, ⟨?_, ?_⟩, ⟨?_, ?_⟩, ⟨?_, ?_⟩, ⟨?_, ?_⟩⟩
  · intro fetch
    exact request_outcome js fetch c "GET" endpoint .null customHeaders
  · rw [requestOptions_body]
    simp [JSVal.truthy]
  · intro fetch
    exact request_outcome js fetch c "DELETE" endpoint .null customHeaders
  · rw [requestOptions_body]
    simp [JSVal.truthy]
  · intro fetch
    exact request_outcome js fetch c "POST" endpoint data customHeaders
  · rw [hbody "POST"]
    simp [hpost]
  · intro fetch
    exact request_outcome js fetch c "PUT" endpoint data customHeaders
  · rw [hbody "PUT"]
    simp [hput]
  · intro fetch
    exact request_outcome js fetch c "PATCH" endpoint data customHeaders
  · rw [hbody "PATCH"]
    simp [hpatch]

/-- Instance of C8: on the default client, `post` with the empty object sends
the body `{}`, `post` with `null` sends none, and a lower-case `patch` passed to
`request` is recognised after upper-casing. -/
theorem request_body_only_for_post_put_patch_default :
    (sampleBuiltins.toUpperCase "POST" = "POST" ∧ sampleBuiltins.toUpperCase "PUT" = "PUT"
      ∧ sampleBuiltins.toUpperCase "PATCH" = "PATCH")
    ∧ (defaultClient.requestOptions sampleBuiltins "POST" (defaultNull (.obj [])) none).body
        = some "\x7b\x7d"
    ∧ (defaultClient.requestOptions sampleBuiltins "patch" (defaultNull (.bool true)) none).body
        = some "true"
    ∧ (defaultClient.requestOptions sampleBuiltins "GET" .null none).body = none := by
  have hup : sampleBuiltins.toUpperCase "POST" = "POST"
      ∧ sampleBuiltins.toUpperCase "PUT" = "PUT"
      ∧ sampleBuiltins.toUpperCase "PATCH" = "PATCH" := by decide
  have h1 := request_body_only_for_post_put_patch sampleBuiltins defaultClient
    "POST" "/orders" (.obj []) none hup
  have h2 := request_body_only_for_post_put_patch sampleBuiltins defaultClient
    "patch" "/profile" (.bool true) none hup
  refine ⟨hup, ?_, ?_, h1.2.1.2⟩
  · rw [h1.2.2.2.1.2]; rfl
  · rw [h2.1.2]
    have hm : sampleBuiltins.toUpperCase "patch" = "PATCH" := by decide
    simp [hm, JSVal.truthy]
    rfl

/-! ## Token service -/

theorem eq_of_isStr (v : JSVal) (s : String) (h : isStr v s = true) : v = .str s := by
  cases v <;> simp_all [isStr]

/-- C5: `createTestUser` merges `customFields` over the defaults key by key:
the user has, for each key, the custom value when `customFields` has the key
and the default otherwise, and its keys are those of the two objects. With no
custom field the user is exactly the defaults; a custom `name` changes only
`name`. The call returns exactly when `generateToken` of the merged user
returns; the token is that token and `authHeader` is
`{Authorization: "Bearer " + token}`. -/
theorem createTestUser_shallow_merge (jwt : JwtLib) (cfg : Config) (now : Nat)
    (customFields : Obj) (x : JSVal) :
    createTestUser jwt cfg now (some customFields)
      = (match generateToken jwt cfg now (Obj.spread defaultUser customFields) with
         | .error e => .error e
         | .ok token =>
           .ok { user := Obj.spread defaultUser customFields
                 token := token
                 authHeader := [("Authorization", .str ("Bearer " ++ token))] })
    ∧ (∀ k, Obj.get (Obj.spread defaultUser customFields) k
        = if Obj.has customFields k then Obj.get customFields k else Obj.get defaultUser k)
    ∧ (∀ k, Obj.has (Obj.spread defaultUser customFields) k
        = (Obj.has defaultUser k || Obj.has customFields k))
    ∧ createTestUser jwt cfg now none = createTestUser jwt cfg now (some [])
    ∧ Obj.spread defaultUser [] = defaultUser
    ∧ Obj.spread defaultUser [("name", x)]
        = [("id", .str "test-user-id"), ("email", .str "test@example.com"), ("name", x)] := by
  refine ⟨rfl, fun k => Obj.get_spread _ _ k, fun k => Obj.has_spread _ _ k, rfl, ?_, ?_⟩
  · simp [Obj.spread, Obj.assign, Obj.keys, defaultUser, Obj.set, Obj.get]
  · simp [Obj.spread, Obj.assign, Obj.keys, defaultUser, Obj.set, Obj.get]

/-- C3: let `token` be what `generateToken(U)` returned at clock reading
`tSign`, and suppose the library accepts the token it signed for that call,
with the same secret, at every clock reading before the token's expiry (from
`tSign` until `lifetime` seconds later), returning the signed payload fields.
Then at any such clock reading `verifyToken(token)` is a decoded object, not
`null`, whose `email` is `U.email` and whose `userId` is `U.id` when `U.id` is
truthy and `"test-user-id"` when `U.id` is missing or falsy. -/
theorem verifyToken_generateToken (jwt : JwtLib) (cfg : Config)
    (tSign tVerify lifetime : Nat) (U : Obj) (token : String)
    (hsign : generateToken jwt cfg tSign U = .ok token)
    (hlib : ∀ signed,
      jwt.sign tSign (tokenPayload U) cfg.JWT_SECRET cfg.JWT_EXPIRATION = .ok signed →
      ∀ t, tSign ≤ t → t < tSign + lifetime →
        ∃ decoded : Obj,
          jwt.verify t (.str signed) cfg.JWT_SECRET = .ok (.obj decoded)
          ∧ ∀ k, Obj.has (tokenPayload U) k = true →
              Obj.get decoded k = Obj.get (tokenPayload U) k)
    (hafter : tSign ≤ tVerify) (hbefore : tVerify < tSign + lifetime) :
    ∃ decoded : Obj,
      verifyToken jwt cfg tVerify (.str token) = (.ok (.obj decoded), [])
      ∧ Obj.get decoded "email" = Obj.get U "email"
      ∧ Obj.get decoded "userId"
          = if (Obj.get U "id").truthy then Obj.get U "id" else .str "test-user-id" := by
  obtain ⟨decoded, hverify, hfields⟩ := hlib token hsign tVerify hafter hbefore
  refine ⟨decoded, ?_, ?_, ?_⟩
  · simp [verifyToken, hverify]
  · rw [hfields "email" (by simp [tokenPayload, Obj.has])]
    simp [tokenPayload, Obj.get]
  · rw [hfields "userId" (by simp [tokenPayload, Obj.has])]
    simp [tokenPayload, Obj.get, JSVal.or]

/-- Instance of C3 on the library that honours expiry, signing at clock
reading 100 with the default one-hour lifetime and verifying at 3699, one
second before expiry: a user whose `id` is `0` decodes to the default id, and
a user with its own id and email decodes to these. -/
theorem verifyToken_generateToken_before_expiry :
    (generateToken expiringJwt (loadEnv emptyEnv) 100
        [("id", .num 0), ("email", .str "test@example.com")]
        = .ok "default_jwt_secret|100|3700|test-user-id|test@example.com"
      ∧ ∃ decoded : Obj,
          verifyToken expiringJwt (loadEnv emptyEnv) 3699
              (.str "default_jwt_secret|100|3700|test-user-id|test@example.com")
            = (.ok (.obj decoded), [])
          ∧ Obj.get decoded "email" = .str "test@example.com"
          ∧ Obj.get decoded "userId" = .str "test-user-id")
    ∧ (generateToken expiringJwt (loadEnv emptyEnv) 100
        [("id", .str "u-42"), ("email", .str "ann@example.com"), ("name", .str "Ann")]
        = .ok "default_jwt_secret|100|3700|u-42|ann@example.com"
      ∧ ∃ decoded : Obj,
          verifyToken expiringJwt (loadEnv emptyEnv) 3699
              (.str "default_jwt_secret|100|3700|u-42|ann@example.com")
            = (.ok (.obj decoded), [])
          ∧ Obj.get decoded "email" = .str "ann@example.com"
          ∧ Obj.get decoded "userId" = .str "u-42") := by
  have hsign₁ : generateToken expiringJwt (loadEnv emptyEnv) 100
      [("id", .num 0), ("email", .str "test@example.com")]
      = .ok "default_jwt_secret|100|3700|test-user-id|test@example.com" := by rfl
  have hsign₂ : generateToken expiringJwt (loadEnv emptyEnv) 100
      [("id", .str "u-42"), ("email", .str "ann@example.com"), ("name", .str "Ann")]
      = .ok "default_jwt_secret|100|3700|u-42|ann@example.com" := by rfl
  refine ⟨⟨hsign₁, ?_⟩, ⟨hsign₂, ?_⟩⟩
  · obtain ⟨decoded, h1, h2, h3⟩ :=
      verifyToken_generateToken expiringJwt (loadEnv emptyEnv) 100 3699 3600
        [("id", .num 0), ("email", .str "test@example.com")]
        "default_jwt_secret|100|3700|test-user-id|test@example.com" hsign₁
        (by
          intro signed hs t _ ht
          have hs' : signed = "default_jwt_secret|100|3700|test-user-id|test@example.com" := by
            have h := hsign₁
            unfold generateToken at h
            rw [h] at hs
            injection hs with hs
            exact hs.symm
          subst hs'
          have ht' : t < 3700 := ht
          refine ⟨[("userId", .str "test-user-id"), ("email", .str "test@example.com"),
            ("iat", .num 100), ("exp", .num 3700)], ?_, ?_⟩
          · show (if t < 3700 then _ else _) = _
            rw [if_pos ht']
            rfl
          · intro k hk
            have hk' : k = "userId" ∨ k = "email" := by
              rw [Obj.has_eq_mem_keys] at hk
              have hmem : k ∈ ["userId", "email"] := of_decide_eq_true hk
              simpa using hmem
            rcases hk' with rfl | rfl <;> rfl)
        (by decide) (by decide)
    exact ⟨decoded, h1, by rw [h2]; rfl, by rw [h3]; rfl⟩
  · obtain ⟨decoded, h1, h2, h3⟩ :=
      verifyToken_generateToken expiringJwt (loadEnv emptyEnv) 100 3699 3600
        [("id", .str "u-42"), ("email", .str "ann@example.com"), ("name", .str "Ann")]
        "default_jwt_secret|100|3700|u-42|ann@example.com" hsign₂
        (by
          intro signed hs t _ ht
          have hs' : signed = "default_jwt_secret|100|3700|u-42|ann@example.com" := by
            have h := hsign₂
            unfold generateToken at h
            rw [h] at hs
            injection hs with hs
            exact hs.symm
          subst hs'
          have ht' : t < 3700 := ht
          refine ⟨[("userId", .str "u-42"), ("email", .str "ann@example.com"),
            ("iat", .num 100), ("exp", .num 3700)], ?_, ?_⟩
          · show (if t < 3700 then _ else _) = _
            rw [if_pos ht']
            rfl
          · intro k hk
            have hk' : k = "userId" ∨ k = "email" := by
              rw [Obj.has_eq_mem_keys] at hk
              have hmem : k ∈ ["userId", "email"] := of_decide_eq_true hk
              simpa using hmem
            rcases hk' with rfl | rfl <;> rfl)
        (by decide) (by decide)
    exact ⟨decoded, h1, by rw [h2]; rfl, by rw [h3]; rfl⟩

/-- C4: `verifyToken` never throws. When the library's verification throws,
`verifyToken` returns `null` (and logs the error's message); when it returns a
decoded payload, `verifyToken` returns that payload. -/
theorem verifyToken_never_throws (jwt : JwtLib) (cfg : Config) (now : Nat) (token : JSVal) :
    (∃ v, (verifyToken jwt cfg now token).1 = .ok v)
    ∧ (∀ e, jwt.verify now token cfg.JWT_SECRET = .error e →
        verifyToken jwt cfg now token = (.ok .null, ["Error verifying token: " ++ e.message]))
    ∧ (∀ decoded, jwt.verify now token cfg.JWT_SECRET = .ok decoded →
        verifyToken jwt cfg now token = (.ok decoded, [])) := by
  refine ⟨?_, ?_, ?_⟩
  · unfold verifyToken
    cases jwt.verify now token cfg.JWT_SECRET with
    | error e => exact ⟨.null, rfl⟩
    | ok decoded => exact ⟨decoded, rfl⟩
  · intro e he
    simp [verifyToken, he]
  · intro decoded hd
    simp [verifyToken, hd]

/-- Instance of C4 on the sample library: a token with a tampered signature, a
token that is not a string and an expired token all give `null`. -/
theorem verifyToken_never_throws_sample :
    verifyToken sampleJwt (loadEnv emptyEnv) 60 (.str "header.payload.tampered")
        = (.ok .null, ["Error verifying token: invalid signature"])
    ∧ verifyToken sampleJwt (loadEnv emptyEnv) 60 (.num 7)
        = (.ok .null, ["Error verifying token: jwt must be a string"])
    ∧ verifyToken sampleJwt (loadEnv emptyEnv) 3600 (.str "header.payload.signature")
        = (.ok .null, ["Error verifying token: jwt expired"]) :=
  ⟨(verifyToken_never_throws sampleJwt (loadEnv emptyEnv) 60
        (.str "header.payload.tampered")).2.1 _ rfl,
   (verifyToken_never_throws sampleJwt (loadEnv emptyEnv) 60 (.num 7)).2.1 _ rfl,
   (verifyToken_never_throws sampleJwt (loadEnv emptyEnv) 3600
        (.str "header.payload.signature")).2.1 _ rfl⟩

/-! ## Authenticated request wrapper -/

/-- C1: for a result `r` of `createAuthenticatedRequest(app, options)`, the
user and token of `r` are those of `createTestUser(options.user)`, the token is
`generateToken` of that user, and for each of the six verbs the wrapped call is
the underlying `request[m](url, ...args)` with `Authorization` set to
`"Bearer " + token`: the outgoing `Authorization` header is that value, every
header of another name (names compared without regard to case) and the rest of
the request are those of the underlying call. -/
theorem createAuthenticatedRequest_attaches_bearer (toLowerCase : String → String)
    (supertest : JSVal → Agent) (jwt : JwtLib)
    (cfg : Config) (now : Nat) (app : JSVal) (options : Option AuthOptions)
    (r : AuthenticatedRequest)
    (hr : createAuthenticatedRequest toLowerCase supertest jwt cfg now app options = .ok r) :
    createTestUser jwt cfg now (options.getD { user := none }).user
        = .ok { user := r.user, token := r.token,
                authHeader := [("Authorization", .str ("Bearer " ++ r.token))] }
    ∧ generateToken jwt cfg now r.user = .ok r.token
    ∧ ∀ m, m ∈ ["get", "post", "put", "patch", "delete", "head"] → ∀ url args,
        r.request m url args
            = (createRequest supertest cfg app m url args).set toLowerCase "Authorization"
                (.str ("Bearer " ++ r.token))
        ∧ (r.request m url args).getHeader toLowerCase "Authorization"
            = .str ("Bearer " ++ r.token)
        ∧ (∀ k, toLowerCase k ≠ toLowerCase "Authorization" →
            (r.request m url args).getHeader toLowerCase k
              = (createRequest supertest cfg app m url args).getHeader toLowerCase k)
        ∧ (r.request m url args).app = (createRequest supertest cfg app m url args).app
        ∧ (r.request m url args).method = (createRequest supertest cfg app m url args).method
        ∧ (r.request m url args).url = (createRequest supertest cfg app m url args).url
        ∧ (r.request m url args).args = (createRequest supertest cfg app m url args).args
        ∧ (r.request m url args).payload
            = (createRequest supertest cfg app m url args).payload := by
  unfold createAuthenticatedRequest at hr
  simp only [] at hr
  cases htu : createTestUser jwt cfg now (options.getD { user := none }).user with
  | error e => rw [htu] at hr; cases hr
  | ok tu =>
    rw [htu] at hr
    injection hr with hr
    subst hr
    have htu' := htu
    unfold createTestUser at htu'
    simp only [] at htu'
    cases hg : generateToken jwt cfg now
        (Obj.spread defaultUser ((options.getD { user := none }).user.getD [])) with
    | error e => rw [hg] at htu'; cases htu'
    | ok token =>
      rw [hg] at htu'
      injection htu' with htu'
      subst htu'
      refine ⟨rfl, hg, ?_⟩
      intro m hm url args
      have hmem : m ∈ methods := hm
      have hcall : authRequest toLowerCase (createRequest supertest cfg app) token m url args
          = (createRequest supertest cfg app m url args).set toLowerCase "Authorization"
              (.str ("Bearer " ++ token)) := by
        simp [authRequest, hmem]
      refine ⟨hcall, ?_, ?_, ?_, ?_, ?_, ?_, ?_⟩
      · show Req.getHeader toLowerCase
          (authRequest toLowerCase (createRequest supertest cfg app) token m url args) _ = _
        rw [hcall]
        exact Obj.get_set_self _ _ _
      · intro k hk
        show Req.getHeader toLowerCase
          (authRequest toLowerCase (createRequest supertest cfg app) token m url args) _ = _
        rw [hcall]
        exact Obj.get_set_ne _ _ _ _ hk
      all_goals
        show _ = _
        simp only [hcall, Req.set]

/-- Instance of C1: the wrapper built with no arguments on the sample
libraries; its `get("/profile")` carries the bearer header of the issued
token. A verb outside the six, such as `del`, is inherited from the underlying
object and carries no `Authorization` header. -/
theorem createAuthenticatedRequest_attaches_bearer_sample :
    ∃ r, createAuthenticatedRequest asciiLower sampleSupertest sampleJwt (loadEnv emptyEnv) 0
          .undefined none = .ok r
      ∧ r.token = "header.payload.signature"
      ∧ r.user = defaultUser
      ∧ (r.request "del" (.str "/profile") []).getHeader asciiLower "Authorization"
          = .undefined
      ∧ (r.request "get" (.str "/profile") []).getHeader asciiLower "Authorization"
          = .str "Bearer header.payload.signature" := by
  refine ⟨_, rfl, rfl, rfl, rfl, ?_⟩
  exact ((createAuthenticatedRequest_attaches_bearer asciiLower sampleSupertest sampleJwt
    (loadEnv emptyEnv) 0 .undefined none _ rfl).2.2 "get" (by decide) (.str "/profile") []).2.1

theorem createAuthenticatedRequest_request_eq (toLowerCase : String → String)
    (supertest : JSVal → Agent) (jwt : JwtLib)
    (cfg : Config) (now : Nat) (app : JSVal) (options : Option AuthOptions)
    (r : AuthenticatedRequest)
    (hr : createAuthenticatedRequest toLowerCase supertest jwt cfg now app options = .ok r) :
    r.request = authRequest toLowerCase (createRequest supertest cfg app) r.token := by
  unfold createAuthenticatedRequest at hr
  simp only [] at hr
  cases htu : createTestUser jwt cfg now (options.getD { user := none }).user with
  | error e => rw [htu] at hr; cases hr
  | ok tu =>
    rw [htu] at hr
    injection hr with hr
    subst hr
    rfl

/-- C2, as the code behaves: for a result `r` of `createAuthenticatedRequest`,
every verb `m` of the wrapper (the six wrapped verbs among them) and every
header value `v`, a `set("Authorization", v)` chained after `r.request[m](url)`
replaces the credential: the outgoing `Authorization` header is `v`, the
caller's value. -/
theorem chained_set_after_wrapped_call (toLowerCase : String → String)
    (supertest : JSVal → Agent) (jwt : JwtLib)
    (cfg : Config) (now : Nat) (app : JSVal) (options : Option AuthOptions)
    (r : AuthenticatedRequest)
    (hr : createAuthenticatedRequest toLowerCase supertest jwt cfg now app options = .ok r)
    (m : String) (url : JSVal) (args : List JSVal) (v : JSVal) :
    ((r.request m url args).set toLowerCase "Authorization" v).getHeader toLowerCase
        "Authorization" = v := by
  rw [createAuthenticatedRequest_request_eq toLowerCase supertest jwt cfg now app options r hr]
  exact Obj.get_set_self _ _ _

/-- Instance of the amended C2 on the sample libraries: after
`post("/orders")`, setting `Authorization` to `Basic intruder` gives that
header; so does setting it under the lower-case name `authorization`. -/
theorem chained_set_after_wrapped_call_sample :
    ∃ r, createAuthenticatedRequest asciiLower sampleSupertest sampleJwt (loadEnv emptyEnv) 0
          .undefined none = .ok r
      ∧ ((r.request "post" (.str "/orders") []).set asciiLower "authorization"
            (.str "Basic intruder")).getHeader asciiLower "Authorization"
          = .str "Basic intruder"
      ∧ ((r.request "post" (.str "/orders") []).set asciiLower "Authorization"
            (.str "Basic intruder")).getHeader asciiLower "Authorization"
          = .str "Basic intruder" := by
  refine ⟨_, rfl, rfl, ?_⟩
  exact chained_set_after_wrapped_call asciiLower sampleSupertest sampleJwt (loadEnv emptyEnv) 0
    .undefined none _ rfl "post" (.str "/orders") [] (.str "Basic intruder")

/-- C2 fails as stated: on the wrapper built with no arguments on the sample
libraries, `get("/profile").set("Authorization", "Basic intruder")` goes out
with `Authorization: Basic intruder`, which is not `"Bearer " + token`. -/
theorem chained_set_replaces_wrapper_credential :
    ∃ r, createAuthenticatedRequest asciiLower sampleSupertest sampleJwt (loadEnv emptyEnv) 0
          .undefined none = .ok r
      ∧ ((r.request "get" (.str "/profile") []).set asciiLower "Authorization"
            (.str "Basic intruder")).getHeader asciiLower "Authorization"
          = .str "Basic intruder"
      ∧ ((r.request "get" (.str "/profile") []).set asciiLower "Authorization"
            (.str "Basic intruder")).getHeader asciiLower "Authorization"
          ≠ .str ("Bearer " ++ r.token) := by
  refine ⟨_, rfl, rfl, ?_⟩
  intro h
  have h' : (JSVal.str "Basic intruder") = .str "Bearer header.payload.signature" := h
  injection h' with h'
  exact absurd h' (by decide)

end ApiIntegrationTesting
